import Mathlib

/-!
Verification of the media-player component in
`src/src/components/audio-player.tsx`.

The component is a React function component; its state hooks become the
fields of `PlayerState`, the native `<video>` element becomes `Native`,
and each event handler becomes a Lean function on those records.
JavaScript numbers are modelled by `JSNum` (a rational, NaN, or a signed
infinity) so that division by zero and `% 0` behave as in the source.
-/

/-- A JavaScript number: finite (modelled exactly as a rational),
NaN, or a signed infinity. -/
inductive JSNum where
  | nan : JSNum
  | inf (pos : Bool) : JSNum
  | fin (q : ℚ) : JSNum
deriving DecidableEq, Repr

namespace JSNum

/-- JavaScript truncation toward zero of a rational. -/
def jsTrunc (q : ℚ) : ℚ := if 0 ≤ q then (⌊q⌋ : ℚ) else (⌈q⌉ : ℚ)

/-- JavaScript `+` on numbers. -/
def jsAdd : JSNum → JSNum → JSNum
  | nan, _ => nan
  | _, nan => nan
  | inf s, inf t => if s = t then inf s else nan
  | inf s, fin _ => inf s
  | fin _, inf s => inf s
  | fin a, fin b => fin (a + b)

/-- JavaScript `/` on numbers (`x / 0` is a signed infinity for `x ≠ 0`,
`0 / 0` is NaN). Signed zeros are not modelled; the component never
produces a negative zero. -/
def jsDiv : JSNum → JSNum → JSNum
  | nan, _ => nan
  | _, nan => nan
  | inf _, inf _ => nan
  | inf s, fin b => if b = 0 then inf s else inf (s = decide (0 < b))
  | fin _, inf _ => fin 0
  | fin a, fin b =>
      if b = 0 then (if a = 0 then nan else inf (decide (0 < a))) else fin (a / b)

/-- JavaScript `*` on numbers (`Infinity * 0` is NaN). -/
def jsMul : JSNum → JSNum → JSNum
  | nan, _ => nan
  | _, nan => nan
  | inf s, inf t => inf (s = t)
  | inf s, fin b => if b = 0 then nan else inf (s = decide (0 < b))
  | fin a, inf s => if a = 0 then nan else inf (s = decide (0 < a))
  | fin a, fin b => fin (a * b)

/-- JavaScript `%` (remainder; `x % 0` is NaN, sign follows the dividend
via truncated division). -/
def jsMod : JSNum → JSNum → JSNum
  | nan, _ => nan
  | _, nan => nan
  | inf _, _ => nan
  | fin a, inf _ => fin a
  | fin a, fin b => if b = 0 then nan else fin (a - b * jsTrunc (a / b))

/-- Whether a JavaScript number is finite. -/
def isFinite : JSNum → Bool
  | fin _ => true
  | _ => false

end JSNum

/-- Source `interface VideoTrack \x7b title: string; src: string \x7d`. -/
structure VideoTrack where
  title : String
  src : String
deriving DecidableEq, Repr

/-- The component's React state hooks, in declaration order:
`isPlaying`, `isMuted`, `progress`, `currentTime`, `duration`,
`playbackRate`, `tracks`, `currentTrackIndex`. The numeric hooks that
receive values read off the native element are `JSNum` (they can become
NaN); `currentTrackIndex` is `JSNum` because `(i + 1) % 0` is NaN. -/
structure PlayerState where
  isPlaying : Bool
  isMuted : Bool
  progress : JSNum
  currentTime : JSNum
  duration : JSNum
  playbackRate : ℚ
  tracks : List VideoTrack
  currentTrackIndex : JSNum
deriving DecidableEq, Repr

/-- The initial hook values: `false, false, 0, 0, 0, 1, [], 0`. -/
def initPlayerState : PlayerState :=
  { isPlaying := false
    isMuted := false
    progress := JSNum.fin 0
    currentTime := JSNum.fin 0
    duration := JSNum.fin 0
    playbackRate := 1
    tracks := []
    currentTrackIndex := JSNum.fin 0 }

/-- JavaScript array indexing `tracks[i]` with a `JSNum` index: a track is
found only when the index is a non-negative integer below the length
(`tracks[NaN]`, `tracks[0.5]`, out-of-range all yield `undefined`). -/
def jsIndex (tracks : List VideoTrack) : JSNum → Option VideoTrack
  | JSNum.fin q => if 0 ≤ q ∧ q.den = 1 then tracks.get? q.num.toNat else none
  | _ => none

/-- Handler `handleTimeUpdate`: reads `currentTime` and `duration` off the native
element and sets `currentTime := current`, `progress := (current / duration) * 100`,
with no guard on the duration. -/
def handleTimeUpdate (s : PlayerState) (current duration : JSNum) : PlayerState :=
  { s with
    currentTime := current
    progress := JSNum.jsMul (JSNum.jsDiv current duration) (JSNum.fin 100) }

/-- Handler `handleLoadedMetadata`: stores the native element's duration. -/
def handleLoadedMetadata (s : PlayerState) (duration : JSNum) : PlayerState :=
  { s with duration := duration }

/-- Handler `handleFileUpload`: when the file list is non-null, derive one track
per file (title = file name, src = object URL), append them to the
playlist, and reset index, playing flag, progress and current time.
`URL.createObjectURL` is abstracted as the parameter `u`. -/
def handleFileUpload (u : String → String) (s : PlayerState)
    (files : Option (List String)) : PlayerState :=
  match files with
  | none => s
  | some fs =>
      { s with
        tracks := s.tracks ++ fs.map (fun f => { title := f, src := u f })
        currentTrackIndex := JSNum.fin 0
        isPlaying := false
        progress := JSNum.fin 0
        currentTime := JSNum.fin 0 }

/-- Handler `playNextTrack`: `setCurrentTrackIndex((prev) => (prev + 1) % tracks.length)`. -/
def playNextTrack (s : PlayerState) : PlayerState :=
  { s with
    currentTrackIndex :=
      JSNum.jsMod (JSNum.jsAdd s.currentTrackIndex (JSNum.fin 1))
        (JSNum.fin s.tracks.length) }

/-- Source `formatTime`: `Math.floor(time / 60)` minutes, `Math.floor(time % 60)`
seconds, seconds zero-padded to two digits. `toString` of the integer
matches JavaScript template rendering of an integral number. -/
def formatTime (time : ℚ) : String :=
  let minutes : ℤ := ⌊time / 60⌋
  let seconds : ℤ := ⌊time - 60 * JSNum.jsTrunc (time / 60)⌋
  toString minutes ++ ":" ++ (if seconds < 10 then "0" else "") ++ toString seconds

/-- The spec's reading of `formatTime`: truncate the seconds toward zero,
then minutes = `n / 60` unpadded and seconds = `n % 60` zero-padded to
two digits. -/
def formatTimeSpec (time : ℚ) : String :=
  let n : ℕ := (⌊time⌋).toNat
  toString (n / 60) ++ ":" ++ (if n % 60 < 10 then "0" else "") ++ toString (n % 60)

/-- A command issued to the native media element. -/
inductive Cmd where
  | play : Cmd
  | pause : Cmd
  | load : Cmd
  | seek : Cmd
deriving DecidableEq, Repr

/-- The native `<video>` element: its `src`, whether it is playing, its
muted flag, the registered `loadeddata` listeners (identifier plus the
`isPlaying` value the listener closure captured at registration), and a
log of the commands issued to it. -/
structure Native where
  src : Option String
  playing : Bool
  muted : Bool
  listeners : List (ℕ × Bool)
  log : List Cmd
deriving DecidableEq, Repr

/-- The freshly mounted native element: no source, paused, unmuted,
no listeners, no commands issued. -/
def initNative : Native :=
  { src := none, playing := false, muted := false, listeners := [], log := [] }

/-- Handler `togglePlayPause`: with a non-null ref, issue `pause()` if the stored
flag says playing, else `play()`, then flip the stored flag. With a null
ref it does nothing. -/
def togglePlayPause (ref : Bool) (sn : PlayerState × Native) : PlayerState × Native :=
  if ref then
    let n :=
      if sn.1.isPlaying then
        { sn.2 with playing := false, log := sn.2.log ++ [Cmd.pause] }
      else
        { sn.2 with playing := true, log := sn.2.log ++ [Cmd.play] }
    ({ sn.1 with isPlaying := !sn.1.isPlaying }, n)
  else sn

/-- Handler `toggleMute`: mirror the negated flag onto the element and store it. -/
def toggleMute (sn : PlayerState × Native) : PlayerState × Native :=
  ({ sn.1 with isMuted := !sn.1.isMuted }, { sn.2 with muted := !sn.1.isMuted })

/-- The whole mounted component: React state, the native element, the
cleanup of the last `useEffect` run that registered a listener (the
identifier of the listener it will remove), and a counter producing
fresh listener identifiers. -/
structure Machine where
  shell : PlayerState
  native : Native
  pendingCleanup : Option ℕ
  nextId : ℕ
deriving DecidableEq, Repr

/-- The component right after mount (the mount-time effect run found an
empty playlist and did nothing). -/
def initMachine : Machine :=
  { shell := initPlayerState, native := initNative, pendingCleanup := none, nextId := 0 }

/-- Run the cleanup returned by the previous effect run, if any: it
removes the listener it registered. -/
def runCleanup (m : Machine) : Machine :=
  match m.pendingCleanup with
  | none => m
  | some id =>
      { m with
        native :=
          { m.native with listeners := m.native.listeners.filter (fun l => l.1 ≠ id) }
        pendingCleanup := none }

/-- The body of the `useEffect` on `[currentTrackIndex, tracks]`: when the
current track exists, pause the element, set its `src`, call `load()`,
reset the playing flag / progress / current time, and register a
`loadeddata` listener whose closure captures the render's `isPlaying`
(the value before this body's `setIsPlaying(false)` is applied). When
the current track lookup fails, the body does nothing and returns no
cleanup. -/
def effectBody (m : Machine) : Machine :=
  match jsIndex m.shell.tracks m.shell.currentTrackIndex with
  | none => m
  | some tr =>
      { shell :=
          { m.shell with
            isPlaying := false
            progress := JSNum.fin 0
            currentTime := JSNum.fin 0 }
        native :=
          { m.native with
            playing := false
            src := some tr.src
            log := m.native.log ++ [Cmd.pause, Cmd.load]
            listeners := m.native.listeners ++ [(m.nextId, m.shell.isPlaying)] }
        pendingCleanup := some m.nextId
        nextId := m.nextId + 1 }

/-- A re-run of the effect: React first runs the previous cleanup, then
the body. -/
def runEffect (m : Machine) : Machine :=
  effectBody (runCleanup m)

/-- An event delivered to the mounted component: a user interaction or a
native-element notification. `timeUpdate` and `loadedMetadata` carry the
values the handler reads off the element at that moment. -/
inductive Event where
  | togglePlayPause : Event
  | toggleMute : Event
  | timeUpdate (current duration : JSNum) : Event
  | loadedMetadata (duration : JSNum) : Event
  | progressClick : Event
  | rateChange (r : ℚ) : Event
  | fileUpload (files : Option (List String)) : Event
  | nextTrack : Event
  | skip (delta : ℚ) : Event
  | loadedData : Event
deriving DecidableEq, Repr

/-- Fire the registered `loadeddata` listeners in order: each closure
checks the `isPlaying` value it captured and, when it is `true`, calls
`play()` on the element. -/
def fireLoadedData (n : Native) : Native :=
  n.listeners.foldl
    (fun acc l =>
      if l.2 then { acc with playing := true, log := acc.log ++ [Cmd.play] } else acc)
    n

/-- Apply one event's handler to the machine. The returned flag says
whether the handler changed the effect's dependencies
`[currentTrackIndex, tracks]` (a new array reference from `setTracks`,
or an index value that differs under `Object.is` — which identifies NaN
with NaN). -/
def applyEvent (u : String → String) (m : Machine) : Event → Machine × Bool
  | Event.togglePlayPause =>
      let sn := togglePlayPause true (m.shell, m.native)
      ({ m with shell := sn.1, native := sn.2 }, false)
  | Event.toggleMute =>
      let sn := toggleMute (m.shell, m.native)
      ({ m with shell := sn.1, native := sn.2 }, false)
  | Event.timeUpdate current duration =>
      ({ m with shell := handleTimeUpdate m.shell current duration }, false)
  | Event.loadedMetadata duration =>
      ({ m with shell := handleLoadedMetadata m.shell duration }, false)
  | Event.progressClick =>
      ({ m with native := { m.native with log := m.native.log ++ [Cmd.seek] } }, false)
  | Event.rateChange r =>
      ({ m with shell := { m.shell with playbackRate := r } }, false)
  | Event.fileUpload files =>
      ({ m with shell := handleFileUpload u m.shell files }, files.isSome)
  | Event.nextTrack =>
      let s := playNextTrack m.shell
      ({ m with shell := s }, s.currentTrackIndex ≠ m.shell.currentTrackIndex)
  | Event.skip _ =>
      ({ m with native := { m.native with log := m.native.log ++ [Cmd.seek] } }, false)
  | Event.loadedData =>
      ({ m with native := fireLoadedData m.native }, false)

/-- One step of the event loop: run the handler; if it changed the
effect's dependencies, re-run the effect (cleanup, then body) after the
re-render. -/
def step (u : String → String) (m : Machine) (e : Event) : Machine :=
  let r := applyEvent u m e
  if r.2 then runEffect r.1 else r.1

/-- Run a sequence of events from a starting machine. -/
def run (u : String → String) (m : Machine) (es : List Event) : Machine :=
  es.foldl (step u) m

/-- The listener bookkeeping invariant: either no cleanup is pending and
no listener is registered, or exactly the one listener registered by the
pending cleanup's effect run is. -/
def ListenerInv (m : Machine) : Prop :=
  match m.pendingCleanup with
  | none => m.native.listeners = []
  | some id => ∃ f, m.native.listeners = [(id, f)]

/-- A three-track playlist used as a concrete test fixture. -/
def samplePlaylist : List VideoTrack :=
  [{ title := "a", src := "a" }, { title := "b", src := "b" }, { title := "c", src := "c" }]

/-- A state holding the three-track playlist with the current index at 2. -/
def sampleState3 : PlayerState :=
  { initPlayerState with tracks := samplePlaylist, currentTrackIndex := JSNum.fin 2 }

/-- The machine reached from mount by uploading `[a.mp4, b.mp4]` and then
pressing play: two tracks, index 0, playing, one `loadeddata` listener
registered by the upload's effect run (captured flag `false`). -/
def uploadedPlayingMachine : Machine :=
  { shell :=
      { isPlaying := true
        isMuted := false
        progress := JSNum.fin 0
        currentTime := JSNum.fin 0
        duration := JSNum.fin 0
        playbackRate := 1
        tracks := [{ title := "a.mp4", src := "a.mp4" }, { title := "b.mp4", src := "b.mp4" }]
        currentTrackIndex := JSNum.fin 0 }
    native :=
      { src := some "a.mp4"
        playing := true
        muted := false
        listeners := [(0, false)]
        log := [Cmd.pause, Cmd.load, Cmd.play] }
    pendingCleanup := some 0
    nextId := 1 }

/-! ### Helper lemmas -/

lemma toString_natCast_int (k : ℕ) : toString ((k : ℤ)) = toString k := rfl

lemma jsTrunc_of_nonneg {q : ℚ} (h : 0 ≤ q) : JSNum.jsTrunc q = (⌊q⌋ : ℚ) := by
  simp [JSNum.jsTrunc, h]

lemma floor_natCast_div_natCast (a n : ℕ) : ⌊(a : ℚ) / (n : ℚ)⌋ = ((a / n : ℕ) : ℤ) := by
  rw [← Int.natCast_floor_eq_floor (by positivity), Nat.floor_div_nat, Nat.floor_natCast]

/-- JavaScript `%` agrees with natural-number `mod` on natural operands
with a non-zero divisor. -/
lemma jsMod_natCast (a n : ℕ) (hn : 0 < n) :
    JSNum.jsMod (JSNum.fin (a : ℚ)) (JSNum.fin (n : ℚ)) = JSNum.fin ((a % n : ℕ) : ℚ) := by
  have hn' : ((n : ℚ)) ≠ 0 := by exact_mod_cast hn.ne'
  have hdiv : JSNum.jsTrunc ((a : ℚ) / (n : ℚ)) = ((a / n : ℕ) : ℚ) := by
    rw [jsTrunc_of_nonneg (by positivity), floor_natCast_div_natCast]
    norm_cast
  rw [JSNum.jsMod, if_neg hn', hdiv]
  have h := Nat.mod_add_div a n
  have h' : ((a % n : ℕ) : ℚ) + (n : ℚ) * ((a / n : ℕ) : ℚ) = (a : ℚ) := by
    exact_mod_cast congrArg (fun x : ℕ => (x : ℚ)) h
  congr 1
  linarith

/-- Array lookup at a natural-number index is `List.get?`. -/
lemma jsIndex_natCast (ts : List VideoTrack) (k : ℕ) :
    jsIndex ts (JSNum.fin (k : ℚ)) = ts.get? k := by
  simp [jsIndex]

/-- Applying `playNextTrack` at a natural index over a non-empty playlist stores
`(i + 1) % length`. -/
lemma playNextTrack_index (s : PlayerState) (i : ℕ)
    (hidx : s.currentTrackIndex = JSNum.fin (i : ℚ)) (hn : 0 < s.tracks.length) :
    playNextTrack s
      = { s with currentTrackIndex := JSNum.fin (((i + 1) % s.tracks.length : ℕ) : ℚ) } := by
  have hadd : JSNum.jsAdd (JSNum.fin (i : ℚ)) (JSNum.fin 1)
      = JSNum.fin (((i + 1 : ℕ)) : ℚ) := by
    simp [JSNum.jsAdd]
  unfold playNextTrack
  rw [hidx, hadd, jsMod_natCast _ _ hn]

/-- Firing the `loadeddata` listeners never changes the listener list. -/
lemma foldl_fire_listeners (l : List (ℕ × Bool)) (acc : Native) :
    (l.foldl
      (fun acc x =>
        if x.2 then { acc with playing := true, log := acc.log ++ [Cmd.play] } else acc)
      acc).listeners = acc.listeners := by
  induction l generalizing acc with
  | nil => rfl
  | cons a l ih => cases ha : a.2 <;> simp [List.foldl, ha, ih]

lemma fireLoadedData_listeners (n : Native) :
    (fireLoadedData n).listeners = n.listeners :=
  foldl_fire_listeners n.listeners n

/-- A single listener whose captured flag is `true` issues one `play`. -/
lemma fireLoadedData_single_true (n : Native) (id : ℕ)
    (h : n.listeners = [(id, true)]) :
    fireLoadedData n = { n with playing := true, log := n.log ++ [Cmd.play] } := by
  simp [fireLoadedData, h]

/-- A single listener whose captured flag is `false` does nothing. -/
lemma fireLoadedData_single_false (n : Native) (id : ℕ)
    (h : n.listeners = [(id, false)]) :
    fireLoadedData n = n := by
  simp [fireLoadedData, h]

/-- Event handlers never touch the listener list or the pending cleanup:
only the effect does. -/
lemma applyEvent_listeners (u : String → String) (m : Machine) (e : Event) :
    (applyEvent u m e).1.native.listeners = m.native.listeners ∧
    (applyEvent u m e).1.pendingCleanup = m.pendingCleanup := by
  cases e <;>
    simp [applyEvent, togglePlayPause, toggleMute, handleTimeUpdate,
      handleLoadedMetadata, handleFileUpload, playNextTrack, fireLoadedData_listeners]
  case togglePlayPause => cases m.shell.isPlaying <;> simp

/-- Under the invariant, the cleanup run empties the listener list. -/
lemma runCleanup_of_inv (m : Machine) (h : ListenerInv m) :
    runCleanup m
      = { m with native := { m.native with listeners := [] }, pendingCleanup := none } := by
  obtain ⟨shell, ⟨src, playing, muted, listeners, log⟩, pc, nid⟩ := m
  cases pc with
  | none =>
      simp only [ListenerInv] at h
      simp_all [runCleanup]
  | some id =>
      simp only [ListenerInv] at h
      obtain ⟨f, hf⟩ := h
      simp_all [runCleanup]

lemma runCleanup_shell (m : Machine) : (runCleanup m).shell = m.shell := by
  unfold runCleanup
  cases hpc : m.pendingCleanup <;> simp

/-- The effect body leaves duration, playback rate and muted flag alone. -/
lemma effectBody_frame (m : Machine) :
    (effectBody m).shell.duration = m.shell.duration ∧
    (effectBody m).shell.playbackRate = m.shell.playbackRate ∧
    (effectBody m).shell.isMuted = m.shell.isMuted := by
  unfold effectBody
  cases h : jsIndex m.shell.tracks m.shell.currentTrackIndex <;> simp

lemma runEffect_frame (m : Machine) :
    (runEffect m).shell.duration = m.shell.duration ∧
    (runEffect m).shell.playbackRate = m.shell.playbackRate ∧
    (runEffect m).shell.isMuted = m.shell.isMuted := by
  unfold runEffect
  have h1 := effectBody_frame (runCleanup m)
  have h2 := runCleanup_shell m
  rw [h2] at h1
  exact h1

/-- The effect re-establishes the invariant. -/
lemma listenerInv_runEffect (m : Machine) (h : ListenerInv m) :
    ListenerInv (runEffect m) := by
  rw [runEffect, runCleanup_of_inv m h]
  unfold effectBody
  cases hj : jsIndex m.shell.tracks m.shell.currentTrackIndex with
  | none => simp [ListenerInv]
  | some tr => exact ⟨m.shell.isPlaying, by simp⟩

/-- The invariant depends only on the listener list and pending cleanup. -/
lemma listenerInv_of_eq (m m' : Machine)
    (h1 : m'.native.listeners = m.native.listeners)
    (h2 : m'.pendingCleanup = m.pendingCleanup) (h : ListenerInv m) :
    ListenerInv m' := by
  unfold ListenerInv at h ⊢
  rw [h1, h2]
  exact h

lemma listenerInv_step (u : String → String) (m : Machine) (e : Event)
    (h : ListenerInv m) : ListenerInv (step u m e) := by
  have ha := applyEvent_listeners u m e
  have hinv' : ListenerInv (applyEvent u m e).1 :=
    listenerInv_of_eq m _ ha.1 ha.2 h
  unfold step
  cases hc : (applyEvent u m e).2 <;> simp [hc]
  · exact hinv'
  · exact listenerInv_runEffect _ hinv'

lemma listenerInv_init : ListenerInv initMachine := by
  simp [ListenerInv, initMachine, initNative]

lemma listenerInv_run (u : String → String) (es : List Event) :
    ∀ m, ListenerInv m → ListenerInv (run u m es) := by
  induction es with
  | nil => exact fun m h => h
  | cons e es ih => exact fun m h => ih _ (listenerInv_step u m e h)

lemma length_le_one_of_inv (m : Machine) (h : ListenerInv m) :
    m.native.listeners.length ≤ 1 := by
  unfold ListenerInv at h
  cases hpc : m.pendingCleanup with
  | none => rw [hpc] at h; simp [h]
  | some id =>
      rw [hpc] at h
      obtain ⟨f, hf⟩ := h
      simp [hf]

/-- Evaluation of a `nextTrack` step that lands on a valid, different
track: the index wraps, the shell is reset to paused at position 0, the
element gets the new source, and one fresh listener capturing the
pre-switch `isPlaying` is registered after the old one is removed. -/
lemma step_nextTrack_eval (u : String → String) (m : Machine) (i : ℕ) (tr : VideoTrack)
    (hInv : ListenerInv m)
    (hidx : m.shell.currentTrackIndex = JSNum.fin (i : ℚ))
    (hi : i < m.shell.tracks.length)
    (hne : (i + 1) % m.shell.tracks.length ≠ i)
    (htr : m.shell.tracks.get? ((i + 1) % m.shell.tracks.length) = some tr) :
    step u m Event.nextTrack
      = { shell :=
            { m.shell with
              currentTrackIndex := JSNum.fin (((i + 1) % m.shell.tracks.length : ℕ) : ℚ)
              isPlaying := false
              progress := JSNum.fin 0
              currentTime := JSNum.fin 0 }
          native :=
            { m.native with
              playing := false
              src := some tr.src
              log := m.native.log ++ [Cmd.pause, Cmd.load]
              listeners := [(m.nextId, m.shell.isPlaying)] }
          pendingCleanup := some m.nextId
          nextId := m.nextId + 1 } := by
  have hn : 0 < m.shell.tracks.length := lt_of_le_of_lt (Nat.zero_le i) hi
  have hpn := playNextTrack_index m.shell i hidx hn
  have hchg : (playNextTrack m.shell).currentTrackIndex ≠ m.shell.currentTrackIndex := by
    rw [hpn, hidx]
    simp only [JSNum.fin.injEq, ne_eq, Nat.cast_inj]
    exact hne
  have happ : applyEvent u m Event.nextTrack = ({ m with shell := playNextTrack m.shell }, true) := by
    simp [applyEvent, hchg]
  have hinv' : ListenerInv { m with shell := playNextTrack m.shell } :=
    listenerInv_of_eq m _ rfl rfl hInv
  rw [step, happ]
  simp only [if_true]
  rw [runEffect, runCleanup_of_inv _ hinv']
  unfold effectBody
  have hji : jsIndex (playNextTrack m.shell).tracks (playNextTrack m.shell).currentTrackIndex
      = some tr := by
    rw [hpn]
    simpa [jsIndex_natCast] using htr
  simp only [hpn] at hji ⊢
  simp [hji]

/-- Evaluation of a non-null file-upload step: one track per file is
appended, the shell resets to index 0, paused, position 0, and the
effect loads the track at index 0 of the merged playlist, registering a
listener whose captured playing flag is `false` (the handler cleared the
flag before the effect ran). -/
lemma step_upload_eval (u : String → String) (m : Machine) (fs : List String) (tr : VideoTrack)
    (hInv : ListenerInv m)
    (htr : (m.shell.tracks ++ fs.map (fun f => ({ title := f, src := u f } : VideoTrack))).get? 0 = some tr) :
    step u m (Event.fileUpload (some fs))
      = { shell :=
            { m.shell with
              tracks := m.shell.tracks ++ fs.map (fun f => ({ title := f, src := u f } : VideoTrack))
              currentTrackIndex := JSNum.fin 0
              isPlaying := false
              progress := JSNum.fin 0
              currentTime := JSNum.fin 0 }
          native :=
            { m.native with
              playing := false
              src := some tr.src
              log := m.native.log ++ [Cmd.pause, Cmd.load]
              listeners := [(m.nextId, false)] }
          pendingCleanup := some m.nextId
          nextId := m.nextId + 1 } := by
  have happ : applyEvent u m (Event.fileUpload (some fs))
      = ({ m with shell := handleFileUpload u m.shell (some fs) }, true) := by
    simp [applyEvent]
  have hinv' : ListenerInv { m with shell := handleFileUpload u m.shell (some fs) } :=
    listenerInv_of_eq m _ rfl rfl hInv
  rw [step, happ]
  simp only [if_true]
  rw [runEffect, runCleanup_of_inv _ hinv']
  unfold effectBody
  have hji : jsIndex (handleFileUpload u m.shell (some fs)).tracks
      (handleFileUpload u m.shell (some fs)).currentTrackIndex = some tr := by
    simp only [handleFileUpload, jsIndex]
    simpa using htr
  simp only [hji]
  simp [handleFileUpload]

/-! ### Claim theorems -/

/-- C1: for every time-update notification with a finite duration `d > 0`
and finite position `t ∈ [0, d]`, `handleTimeUpdate` stores
`progress = 100 * t / d` (exactly, in the rational model of the float
arithmetic) and `currentTime = t`. -/
theorem handleTimeUpdate_progress (s : PlayerState) (t d : ℚ)
    (hd : 0 < d) (ht0 : 0 ≤ t) (htd : t ≤ d) :
    (handleTimeUpdate s (JSNum.fin t) (JSNum.fin d)).progress = JSNum.fin (100 * t / d) ∧
    (handleTimeUpdate s (JSNum.fin t) (JSNum.fin d)).currentTime = JSNum.fin t := by
  refine ⟨?_, rfl⟩
  simp only [handleTimeUpdate, JSNum.jsDiv, JSNum.jsMul, if_neg hd.ne']
  congr 1
  ring

/-- Witness for C1 at `t = 1`, `d = 2`: progress becomes `50`. -/
theorem handleTimeUpdate_progress_witness :
    (handleTimeUpdate initPlayerState (JSNum.fin 1) (JSNum.fin 2)).progress
        = JSNum.fin (100 * 1 / 2) ∧
    (handleTimeUpdate initPlayerState (JSNum.fin 1) (JSNum.fin 2)).currentTime
        = JSNum.fin 1 :=
  handleTimeUpdate_progress initPlayerState 1 2 (by norm_num) (by norm_num) (by norm_num)

/-- C2: for every non-negative finite number of seconds, `formatTime`
renders `M:SS` with `M = floor(s) / 60` unpadded and
`SS = floor(s) mod 60` zero-padded to two digits, truncating fractional
seconds toward zero and never rolling minutes into hours. -/
theorem formatTime_eq_spec (t : ℚ) (h : 0 ≤ t) : formatTime t = formatTimeSpec t := by
  have h60 : (0 : ℚ) ≤ t / 60 := by positivity
  have hmin : ⌊t / 60⌋ = ((⌊t⌋.toNat / 60 : ℕ) : ℤ) := by
    rw [Int.floor_toNat, ← Nat.floor_div_nat t 60, Nat.cast_ofNat,
      Int.natCast_floor_eq_floor h60]
  have hfl : (⌊t⌋ : ℤ) = (⌊t⌋.toNat : ℤ) := (Int.toNat_of_nonneg (Int.floor_nonneg.2 h)).symm
  have hsec : ⌊t - 60 * JSNum.jsTrunc (t / 60)⌋ = ((⌊t⌋.toNat % 60 : ℕ) : ℤ) := by
    rw [jsTrunc_of_nonneg h60]
    have hc : (60 : ℚ) * (⌊t / 60⌋ : ℚ) = ((60 * ⌊t / 60⌋ : ℤ) : ℚ) := by push_cast; ring
    rw [hc, Int.floor_sub_int, hmin, hfl]
    have := Nat.mod_add_div (⌊t⌋.toNat) 60
    omega
  rw [formatTime, formatTimeSpec, hmin, hsec, toString_natCast_int, toString_natCast_int]
  rcases lt_or_le (⌊t⌋.toNat % 60) 10 with hk | hk
  · rw [if_pos hk, if_pos (by exact_mod_cast hk)]
  · rw [if_neg (by omega), if_neg (by exact_mod_cast not_lt.2 hk)]

/-- Witness for C2: the spec's three examples, via the theorem at 65. -/
theorem formatTime_eq_spec_witness :
    formatTime 65 = formatTimeSpec 65 ∧ formatTime 65 = "1:05" ∧
    formatTime 5 = "0:05" ∧ formatTime 0 = "0:00" ∧ formatTime 3600 = "60:00" :=
  ⟨formatTime_eq_spec 65 (by norm_num),
    by norm_num [formatTime, JSNum.jsTrunc]; rfl,
    by norm_num [formatTime, JSNum.jsTrunc]; rfl,
    by norm_num [formatTime, JSNum.jsTrunc]; rfl,
    by norm_num [formatTime, JSNum.jsTrunc]; rfl⟩

/-- C3 counterexample: on the empty playlist the source computes
`(0 + 1) % 0`, which is NaN in JavaScript, so the stored index changes
(it does not remain the prior valid value 0). -/
theorem playNextTrack_empty_counterexample :
    initPlayerState.tracks = [] ∧
    initPlayerState.currentTrackIndex = JSNum.fin 0 ∧
    (playNextTrack initPlayerState).currentTrackIndex ≠ initPlayerState.currentTrackIndex := by
  refine ⟨rfl, rfl, ?_⟩
  simp [playNextTrack, initPlayerState, JSNum.jsAdd, JSNum.jsMod]

/-- C3 (amended): on an empty playlist `playNextTrack` does not throw (it
is a total state update), but it sets the current-track index to NaN;
the NaN index matches no track, so track lookups yield nothing. -/
theorem playNextTrack_empty (s : PlayerState) (h : s.tracks = []) :
    (playNextTrack s).currentTrackIndex = JSNum.nan ∧
    jsIndex (playNextTrack s).tracks (playNextTrack s).currentTrackIndex = none := by
  have hidx : (playNextTrack s).currentTrackIndex = JSNum.nan := by
    cases hc : s.currentTrackIndex <;>
      simp [playNextTrack, h, hc, JSNum.jsAdd, JSNum.jsMod]
  refine ⟨hidx, ?_⟩
  have ht : (playNextTrack s).tracks = [] := h
  rw [ht, hidx]
  rfl

/-- Witness for C3 at the initial state. -/
theorem playNextTrack_empty_witness :
    initPlayerState.tracks = [] ∧
    ((playNextTrack initPlayerState).currentTrackIndex = JSNum.nan ∧
      jsIndex (playNextTrack initPlayerState).tracks
        (playNextTrack initPlayerState).currentTrackIndex = none) :=
  ⟨rfl, playNextTrack_empty initPlayerState rfl⟩

/-- C4: on a non-empty playlist of length `n` with current index
`i < n`, `playNextTrack` stores index `(i + 1) % n`. -/
theorem playNextTrack_wraps (s : PlayerState) (i : ℕ)
    (hidx : s.currentTrackIndex = JSNum.fin (i : ℚ))
    (hi : i < s.tracks.length) :
    (playNextTrack s).currentTrackIndex
      = JSNum.fin (((i + 1) % s.tracks.length : ℕ) : ℚ) := by
  have hn : 0 < s.tracks.length := lt_of_le_of_lt (Nat.zero_le i) hi
  have hadd : JSNum.jsAdd (JSNum.fin (i : ℚ)) (JSNum.fin 1)
      = JSNum.fin (((i + 1 : ℕ)) : ℚ) := by
    simp [JSNum.jsAdd]
  simp only [playNextTrack]
  rw [hidx, hadd, jsMod_natCast _ _ hn]

/-- Witness for C4: a 3-track playlist at index 2 wraps to index 0. -/
theorem playNextTrack_wraps_witness :
    (playNextTrack sampleState3).currentTrackIndex
        = JSNum.fin ((((2 + 1) % sampleState3.tracks.length : ℕ)) : ℚ) ∧
    (playNextTrack sampleState3).currentTrackIndex = JSNum.fin 0 := by
  have h := playNextTrack_wraps sampleState3 2
    (by norm_num [sampleState3, initPlayerState])
    (by norm_num [sampleState3, samplePlaylist])
  refine ⟨h, ?_⟩
  rw [h]
  norm_num [sampleState3, samplePlaylist]

/-- C5: uploading a non-empty file list appends one track per file in
selection order (title = file name, resource handle from the file, no
deduplication), resets the index to 0, stops playback, and zeroes the
position and progress. -/
theorem handleFileUpload_resets (u : String → String) (s : PlayerState)
    (fs : List String) (hfs : fs ≠ []) :
    (handleFileUpload u s (some fs)).tracks
        = s.tracks ++ fs.map (fun f => { title := f, src := u f }) ∧
    (handleFileUpload u s (some fs)).currentTrackIndex = JSNum.fin 0 ∧
    (handleFileUpload u s (some fs)).isPlaying = false ∧
    (handleFileUpload u s (some fs)).currentTime = JSNum.fin 0 ∧
    (handleFileUpload u s (some fs)).progress = JSNum.fin 0 := by
  simp [handleFileUpload]

/-- Witness for C5: uploading `[a.mp4, b.mp4]` into the empty playlist
yields exactly those two tracks, index 0, stopped, zero position. -/
theorem handleFileUpload_resets_witness :
    (handleFileUpload id initPlayerState (some ["a.mp4", "b.mp4"])).tracks
        = [{ title := "a.mp4", src := "a.mp4" }, { title := "b.mp4", src := "b.mp4" }] ∧
    (handleFileUpload id initPlayerState (some ["a.mp4", "b.mp4"])).currentTrackIndex
        = JSNum.fin 0 ∧
    (handleFileUpload id initPlayerState (some ["a.mp4", "b.mp4"])).isPlaying = false ∧
    (handleFileUpload id initPlayerState (some ["a.mp4", "b.mp4"])).currentTime
        = JSNum.fin 0 ∧
    (handleFileUpload id initPlayerState (some ["a.mp4", "b.mp4"])).progress
        = JSNum.fin 0 := by
  have h := handleFileUpload_resets id initPlayerState ["a.mp4", "b.mp4"] (by simp)
  simpa [initPlayerState] using h

/-- C7: with a non-null native-element ref, toggling twice returns the
playing flag to its starting value and issues exactly the matching
pair of commands, in order: pause-then-play from a playing start,
play-then-pause from a paused start. -/
theorem togglePlayPause_toggle_twice (s : PlayerState) (n : Native) (ref : Bool)
    (h : ref = true) :
    (togglePlayPause ref (togglePlayPause ref (s, n))).1.isPlaying = s.isPlaying ∧
    (togglePlayPause ref (togglePlayPause ref (s, n))).2.log
      = n.log ++ (if s.isPlaying then [Cmd.pause, Cmd.play] else [Cmd.play, Cmd.pause]) := by
  subst h
  cases hp : s.isPlaying <;> simp [togglePlayPause, hp]

/-- Witness for C7 from the paused initial state. -/
theorem togglePlayPause_toggle_twice_witness :
    (togglePlayPause true (togglePlayPause true (initPlayerState, initNative))).1.isPlaying
        = initPlayerState.isPlaying ∧
    (togglePlayPause true (togglePlayPause true (initPlayerState, initNative))).2.log
        = initNative.log ++
          (if initPlayerState.isPlaying then [Cmd.pause, Cmd.play]
            else [Cmd.play, Cmd.pause]) :=
  togglePlayPause_toggle_twice initPlayerState initNative true rfl

/-- C8 counterexample: with duration 0 and a positive current time the
unguarded division stores positive Infinity, which is non-finite but not
NaN. -/
theorem handleTimeUpdate_zero_duration_counterexample :
    (handleTimeUpdate initPlayerState (JSNum.fin 5) (JSNum.fin 0)).progress
        = JSNum.inf true ∧
    (handleTimeUpdate initPlayerState (JSNum.fin 5) (JSNum.fin 0)).progress
        ≠ JSNum.nan := by
  have h : (handleTimeUpdate initPlayerState (JSNum.fin 5) (JSNum.fin 0)).progress
      = JSNum.inf true := by
    norm_num [handleTimeUpdate, JSNum.jsDiv, JSNum.jsMul]
  rw [h]
  simp

/-- C8 (amended): when the native element reports duration 0 or NaN,
`handleTimeUpdate` has no guard and stores a non-finite progress value:
NaN when the duration is NaN, and with duration 0 it stores NaN when
the current time is 0 and positive Infinity when it is positive. -/
theorem handleTimeUpdate_nonfinite (s : PlayerState) (current d : JSNum)
    (h : d = JSNum.fin 0 ∨ d = JSNum.nan) :
    (handleTimeUpdate s current d).progress.isFinite = false ∧
    (d = JSNum.nan → (handleTimeUpdate s current d).progress = JSNum.nan) ∧
    (d = JSNum.fin 0 → ∀ q : ℚ, current = JSNum.fin q →
      (q = 0 → (handleTimeUpdate s current d).progress = JSNum.nan) ∧
      (0 < q → (handleTimeUpdate s current d).progress = JSNum.inf true)) := by
  rcases h with rfl | rfl
  · refine ⟨?_, ?_, ?_⟩
    · cases current with
      | nan => rfl
      | inf b => simp [handleTimeUpdate, JSNum.jsDiv, JSNum.jsMul, JSNum.isFinite]
      | fin q =>
          by_cases hq : q = 0 <;>
            simp [handleTimeUpdate, JSNum.jsDiv, JSNum.jsMul, JSNum.isFinite, hq]
    · intro h
      cases h
    · intro _ q hq
      subst hq
      refine ⟨fun h0 => ?_, fun hpos => ?_⟩
      · simp [handleTimeUpdate, JSNum.jsDiv, JSNum.jsMul, h0]
      · simp [handleTimeUpdate, JSNum.jsDiv, JSNum.jsMul, hpos.ne', hpos]
  · refine ⟨?_, fun _ => ?_, ?_⟩
    · cases current <;> rfl
    · cases current <;> rfl
    · intro h
      cases h

/-- Witness for C8 at duration 0, current time 0: progress is NaN. -/
theorem handleTimeUpdate_nonfinite_witness :
    (handleTimeUpdate initPlayerState (JSNum.fin 0) (JSNum.fin 0)).progress.isFinite
        = false ∧
    (JSNum.fin 0 = JSNum.nan →
      (handleTimeUpdate initPlayerState (JSNum.fin 0) (JSNum.fin 0)).progress
        = JSNum.nan) ∧
    (JSNum.fin 0 = JSNum.fin 0 → ∀ q : ℚ, JSNum.fin 0 = JSNum.fin q →
      (q = 0 →
        (handleTimeUpdate initPlayerState (JSNum.fin 0) (JSNum.fin 0)).progress
          = JSNum.nan) ∧
      (0 < q →
        (handleTimeUpdate initPlayerState (JSNum.fin 0) (JSNum.fin 0)).progress
          = JSNum.inf true)) :=
  handleTimeUpdate_nonfinite initPlayerState (JSNum.fin 0) (JSNum.fin 0) (Or.inl rfl)

/-- C6 counterexample: from mount, upload two tracks, press play, press
next, and let the new track load. The machine right before the switch is
Playing; after `loadeddata` the deferred auto-resume issues `play()` to
the native element — but the stored `isPlaying` flag stays `false`, so
the shell does not re-enter the Playing state as the claim says. -/
theorem trackSwitch_flag_counterexample :
    step id (step id initMachine (Event.fileUpload (some ["a.mp4", "b.mp4"])))
        Event.togglePlayPause = uploadedPlayingMachine ∧
    uploadedPlayingMachine.shell.isPlaying = true ∧
    (step id (step id uploadedPlayingMachine Event.nextTrack) Event.loadedData).native.playing
        = true ∧
    (step id (step id uploadedPlayingMachine Event.nextTrack) Event.loadedData).native.log
        = uploadedPlayingMachine.native.log ++ [Cmd.pause, Cmd.load, Cmd.play] ∧
    (step id (step id uploadedPlayingMachine Event.nextTrack) Event.loadedData).shell.isPlaying
        = false := by
  have hreach : step id (step id initMachine (Event.fileUpload (some ["a.mp4", "b.mp4"])))
      Event.togglePlayPause = uploadedPlayingMachine := by
    norm_num [step, applyEvent, handleFileUpload, initMachine, initPlayerState, initNative,
      runEffect, runCleanup, effectBody, jsIndex, togglePlayPause, uploadedPlayingMachine]
  have h1 : step id uploadedPlayingMachine Event.nextTrack
      = { shell :=
            { uploadedPlayingMachine.shell with
              currentTrackIndex :=
                JSNum.fin (((0 + 1) % uploadedPlayingMachine.shell.tracks.length : ℕ) : ℚ)
              isPlaying := false
              progress := JSNum.fin 0
              currentTime := JSNum.fin 0 }
          native :=
            { uploadedPlayingMachine.native with
              playing := false
              src := some "b.mp4"
              log := uploadedPlayingMachine.native.log ++ [Cmd.pause, Cmd.load]
              listeners := [(uploadedPlayingMachine.nextId, uploadedPlayingMachine.shell.isPlaying)] }
          pendingCleanup := some uploadedPlayingMachine.nextId
          nextId := uploadedPlayingMachine.nextId + 1 } :=
    step_nextTrack_eval id uploadedPlayingMachine 0
      { title := "b.mp4", src := "b.mp4" }
      ⟨false, rfl⟩ rfl (by norm_num [uploadedPlayingMachine]) (by decide) (by decide)
  have h2 : step id (step id uploadedPlayingMachine Event.nextTrack) Event.loadedData
      = { (step id uploadedPlayingMachine Event.nextTrack) with
          native :=
            { (step id uploadedPlayingMachine Event.nextTrack).native with
              playing := true
              log := (step id uploadedPlayingMachine Event.nextTrack).native.log
                      ++ [Cmd.play] } } := by
    rw [h1]
    simp only [step, applyEvent]
    rw [fireLoadedData_single_true _ uploadedPlayingMachine.nextId (by simp [uploadedPlayingMachine])]
    simp
  refine ⟨hreach, rfl, ?_, ?_, ?_⟩
  · rw [h2]
  · rw [h2, h1]
    simp
  · rw [h2, h1]

/-- C6 (amended): on every track change with a valid, different target
track — whatever the playing flag was — the player enters the
Loaded-Paused state at position 0. If it was Playing immediately before
a next-track switch, the deferred auto-resume issues a `play()` command
to the native element once the new track signals `loadeddata`, but the
stored `isPlaying` flag remains `false`; if it was Paused, `loadeddata`
resumes nothing. Via upload the handler clears the playing flag before
the effect captures it, so its listener captures `false` and
`loadeddata` resumes nothing there either. -/
theorem trackChange_paused_deferred_play (u : String → String) (m : Machine)
    (i : ℕ) (tr : VideoTrack)
    (hInv : ListenerInv m)
    (hidx : m.shell.currentTrackIndex = JSNum.fin (i : ℚ))
    (hi : i < m.shell.tracks.length)
    (hne : (i + 1) % m.shell.tracks.length ≠ i)
    (htr : m.shell.tracks.get? ((i + 1) % m.shell.tracks.length) = some tr) :
    (step u m Event.nextTrack).shell.isPlaying = false ∧
    (step u m Event.nextTrack).shell.progress = JSNum.fin 0 ∧
    (step u m Event.nextTrack).shell.currentTime = JSNum.fin 0 ∧
    (step u m Event.nextTrack).native.playing = false ∧
    (m.shell.isPlaying = true →
      (step u (step u m Event.nextTrack) Event.loadedData).native.playing = true ∧
      (step u (step u m Event.nextTrack) Event.loadedData).native.log
        = (step u m Event.nextTrack).native.log ++ [Cmd.play] ∧
      (step u (step u m Event.nextTrack) Event.loadedData).shell.isPlaying = false) ∧
    (m.shell.isPlaying = false →
      step u (step u m Event.nextTrack) Event.loadedData = step u m Event.nextTrack) ∧
    (∀ fs : List String, ∀ tr' : VideoTrack,
      (m.shell.tracks ++ fs.map (fun f => ({ title := f, src := u f } : VideoTrack))).get? 0
          = some tr' →
      (step u m (Event.fileUpload (some fs))).shell.isPlaying = false ∧
      (step u m (Event.fileUpload (some fs))).shell.progress = JSNum.fin 0 ∧
      (step u m (Event.fileUpload (some fs))).shell.currentTime = JSNum.fin 0 ∧
      step u (step u m (Event.fileUpload (some fs))) Event.loadedData
        = step u m (Event.fileUpload (some fs))) := by
  have h1 := step_nextTrack_eval u m i tr hInv hidx hi hne htr
  refine ⟨?_, ?_, ?_, ?_, ?_, ?_, ?_⟩
  · rw [h1]
  · rw [h1]
  · rw [h1]
  · rw [h1]
  · intro hplay
    have h2 : step u (step u m Event.nextTrack) Event.loadedData
        = { (step u m Event.nextTrack) with
            native :=
              { (step u m Event.nextTrack).native with
                playing := true
                log := (step u m Event.nextTrack).native.log ++ [Cmd.play] } } := by
      rw [h1]
      simp only [step, applyEvent]
      rw [fireLoadedData_single_true _ m.nextId (by simp [hplay])]
      simp
    refine ⟨?_, ?_, ?_⟩
    · rw [h2]
    · rw [h2]
    · rw [h2, h1]
  · intro hpause
    rw [h1]
    simp only [step, applyEvent]
    rw [fireLoadedData_single_false _ m.nextId (by simp [hpause])]
    simp
  · intro fs tr' htr'
    have h3 := step_upload_eval u m fs tr' hInv htr'
    have h4 : step u (step u m (Event.fileUpload (some fs))) Event.loadedData
        = step u m (Event.fileUpload (some fs)) := by
      rw [h3]
      simp only [step, applyEvent]
      rw [fireLoadedData_single_false _ m.nextId (by simp)]
      simp
    refine ⟨?_, ?_, ?_, h4⟩
    · rw [h3]
    · rw [h3]
    · rw [h3]

/-- Witness for C6 at the concrete playing machine with two tracks: the
switch resets the shell to paused at position 0, and `loadeddata` then
resumes the element while the stored flag stays false. -/
theorem trackChange_paused_deferred_play_witness :
    (step id uploadedPlayingMachine Event.nextTrack).shell.isPlaying = false ∧
    (step id uploadedPlayingMachine Event.nextTrack).shell.progress = JSNum.fin 0 ∧
    (step id uploadedPlayingMachine Event.nextTrack).shell.currentTime = JSNum.fin 0 ∧
    (step id (step id uploadedPlayingMachine Event.nextTrack) Event.loadedData).native.playing
        = true ∧
    (step id (step id uploadedPlayingMachine Event.nextTrack) Event.loadedData).shell.isPlaying
        = false := by
  have h := trackChange_paused_deferred_play id uploadedPlayingMachine 0
    { title := "b.mp4", src := "b.mp4" }
    ⟨false, rfl⟩ rfl (by norm_num [uploadedPlayingMachine]) (by decide) (by decide)
  exact ⟨h.1, h.2.1, h.2.2.1, (h.2.2.2.2.1 rfl).1, (h.2.2.2.2.1 rfl).2.2⟩

/-- C9: along every event sequence from mount, the component keeps the
listener-scoping discipline: the registered `loadeddata` listeners are
exactly those of the pending effect cleanup, and at most one listener is
registered at any time (the effect removes the old listener before
registering the new one). -/
theorem loadeddata_listener_unique (u : String → String) (es : List Event) :
    ListenerInv (run u initMachine es) ∧
    (run u initMachine es).native.listeners.length ≤ 1 := by
  have h := listenerInv_run u es initMachine listenerInv_init
  exact ⟨h, length_le_one_of_inv _ h⟩

/-- C10: the upload handler and the track-change effect never touch the
stored duration, playback rate or muted flag, and among all events only
a `loadedmetadata` notification updates the stored duration (which it
sets to the value the element reports). -/
theorem duration_frame_conditions (u : String → String) (m : Machine) (e : Event)
    (fs : Option (List String)) (d : JSNum)
    (h : ∀ d', e ≠ Event.loadedMetadata d') :
    (applyEvent u m (Event.fileUpload fs)).1.shell.duration = m.shell.duration ∧
    (applyEvent u m (Event.fileUpload fs)).1.shell.playbackRate = m.shell.playbackRate ∧
    (applyEvent u m (Event.fileUpload fs)).1.shell.isMuted = m.shell.isMuted ∧
    (runEffect m).shell.duration = m.shell.duration ∧
    (runEffect m).shell.playbackRate = m.shell.playbackRate ∧
    (runEffect m).shell.isMuted = m.shell.isMuted ∧
    (step u m e).shell.duration = m.shell.duration ∧
    (step u m (Event.loadedMetadata d)).shell.duration = d := by
  have hup : (applyEvent u m (Event.fileUpload fs)).1.shell.duration = m.shell.duration ∧
      (applyEvent u m (Event.fileUpload fs)).1.shell.playbackRate = m.shell.playbackRate ∧
      (applyEvent u m (Event.fileUpload fs)).1.shell.isMuted = m.shell.isMuted := by
    cases fs <;> simp [applyEvent, handleFileUpload]
  have heff := runEffect_frame m
  have hstep : ∀ m' : Machine, ∀ e' : Event, (∀ d', e' ≠ Event.loadedMetadata d') →
      (step u m' e').shell.duration = m'.shell.duration := by
    intro m' e' he'
    have hre := (runEffect_frame (applyEvent u m' e').1).1
    have hae : (applyEvent u m' e').1.shell.duration = m'.shell.duration := by
      cases e' with
      | loadedMetadata d' => exact absurd rfl (he' d')
      | togglePlayPause => simp [applyEvent, togglePlayPause]
      | fileUpload fs' => cases fs' <;> simp [applyEvent, handleFileUpload]
      | _ => simp [applyEvent, toggleMute, handleTimeUpdate, playNextTrack]
    unfold step
    cases hc : (applyEvent u m' e').2 <;> simp [hc, hre, hae]
  have hmeta : (step u m (Event.loadedMetadata d)).shell.duration = d := by
    unfold step
    simp [applyEvent, handleLoadedMetadata]
  exact ⟨hup.1, hup.2.1, hup.2.2, heff.1, heff.2.1, heff.2.2, hstep m e h, hmeta⟩

/-- Witness for C10 with a next-track event at the initial machine. -/
theorem duration_frame_conditions_witness :
    (step id initMachine Event.nextTrack).shell.duration = initMachine.shell.duration :=
  (duration_frame_conditions id initMachine Event.nextTrack none (JSNum.fin 0)
    (fun d' h => by cases h)).2.2.2.2.2.2.1
